import Mathlib

/-!
Shallow embedding of the conversation / streaming / action state machine of
the SyDeTre chat front-end (the server actions module): the conversation
state store, the model stream text callback of `submitUserMessage`, the
background task of `performAction`, the persistence handler `onSetAIState`
and the UI projection `getUIStateFromAIState`.
-/

namespace SyDeTre

/-- Message content: in the source the `content` field of a `Message`
(`CoreMessage` from the library types) is either a string or some other
shape (e.g. a parts array); only the string case matters to this module. -/
inductive MContent where
  | str (s : String)
  | other
deriving Repr, DecidableEq

/-- A message of the conversation log:
`{ id, role, content, name? }` per the `Message` type consumed here. -/
structure Message where
  id : String
  role : String
  content : MContent
  name : Option String := none
deriving Repr, DecidableEq

/-- The `AIState`: `{ chatId: string, messages: Message[] }`. -/
structure AIState where
  chatId : String
  messages : List Message
deriving Repr, DecidableEq

/-! ## JSON serialization (model of `JSON.stringify` used by `performAction`) -/

/-- A JavaScript value as far as `JSON.stringify(details)` is concerned. -/
inductive JsonValue where
  | str (s : String)
  | num (n : Int)
  | bool (b : Bool)
  | null
  | arr (xs : List JsonValue)
  | obj (fields : List (String × JsonValue))
deriving Repr

/-- Escaping of quote and backslash inside a JSON string literal. -/
def jsEscape (s : String) : String :=
  s.foldl
    (fun acc c =>
      acc ++ (if c = '"' then "\\\"" else if c = '\\' then "\\\\" else String.singleton c))
    ""

mutual

/-- Model of `JSON.stringify` on a `JsonValue`. -/
def jsonStringify : JsonValue → String
  | .str s => "\"" ++ jsEscape s ++ "\""
  | .num n => toString n
  | .bool b => if b then "true" else "false"
  | .null => "null"
  | .arr xs => "[" ++ jsonStringifyArr xs ++ "]"
  | .obj fields => "\x7b" ++ jsonStringifyObj fields ++ "\x7d"

/-- Comma-separated serialization of a JSON array's elements. -/
def jsonStringifyArr : List JsonValue → String
  | [] => ""
  | [x] => jsonStringify x
  | x :: y :: rest => jsonStringify x ++ "," ++ jsonStringifyArr (y :: rest)

/-- Comma-separated serialization of a JSON object's fields. -/
def jsonStringifyObj : List (String × JsonValue) → String
  | [] => ""
  | [(k, v)] => "\"" ++ jsEscape k ++ "\":" ++ jsonStringify v
  | (k, v) :: f :: rest =>
      "\"" ++ jsEscape k ++ "\":" ++ jsonStringify v ++ "," ++ jsonStringifyObj (f :: rest)

end

/-! ## UI projection (`getUIStateFromAIState`) -/

/-- The renderable handle of a UI entry: `<UserMessage>` around the text,
`<BotMessage content=.../>`, or the `null` display. -/
inductive Display where
  | userMessage (content : MContent)
  | botMessage (content : String)
  | nullDisplay
deriving Repr, DecidableEq

/-- One entry of the `UIState` list: `{ id, display }`. -/
structure UIEntry where
  id : String
  display : Display
deriving Repr, DecidableEq

/-- The display computed for one projected message: `UserMessage` for role
`user`; `BotMessage` for role `assistant` with string content; `null`
for every other shape. -/
def displayFor (m : Message) : Display :=
  if m.role == "user" then
    Display.userMessage m.content
  else if m.role == "assistant" then
    match m.content with
    | .str s => Display.botMessage s
    | .other => Display.nullDisplay
  else Display.nullDisplay

/-- The projection `getUIStateFromAIState`: filter out role `system`,
then map each remaining message together with its index in the filtered
list to the entry `{ id: chatId-index, display }`. -/
def getUIStateFromAIState (aiState : AIState) : List UIEntry :=
  ((aiState.messages.filter (fun m => m.role != "system")).enum).map
    (fun p =>
      { id := aiState.chatId ++ "-" ++ toString p.1
        display := displayFor p.2 })

/-! ## Model stream and the `text` callback of `submitUserMessage` -/

/-- One streamed increment delivered to the `text` callback:
`\x7b content, done, delta \x7d`. -/
structure Increment where
  content : String
  done : Bool
  delta : String
deriving Repr, DecidableEq

/-- The `StreamBuffer` backing the live assistant message.

Modelled from the spec: the accumulation of streamed deltas happens in
`BotMessage` / `useStreamableText` (repository components not present
under `src/`), which concatenates every delta pushed through
`textStream.update(delta)` onto the text shown so far; the spec describes
this as an open buffer to which each non-terminal increment's delta is
appended, closed exactly once.  `notCreated` is the state before the
first callback invocation allocates `textStream`
(`createStreamableValue('')`). -/
inductive StreamBuffer where
  | notCreated
  | opened (acc : String)
  | closed (acc : String)
deriving Repr, DecidableEq

/-- State threaded through successive invocations of the `text` callback:
the streamable text buffer and the mutable `aiState`. -/
structure CallbackState where
  buffer : StreamBuffer
  aiState : AIState
deriving Repr, DecidableEq

/-- One invocation of the `text` callback of `submitUserMessage`
(`text: (\x7b content, done, delta \x7d) => ...`): allocate the buffer on
first use; on a terminal increment close the buffer and append
`\x7b id, role: assistant, content \x7d` to the store via `aiState.done`;
on a non-terminal increment push the delta into the open buffer. -/
def textCallback (assistantMsgId : String) (inc : Increment) (st : CallbackState) :
    CallbackState :=
  let buf :=
    match st.buffer with
    | .notCreated => StreamBuffer.opened ""
    | b => b
  if inc.done then
    match buf with
    | .opened acc =>
        { buffer := .closed acc
          aiState :=
            { st.aiState with
                messages := st.aiState.messages ++
                  [{ id := assistantMsgId, role := "assistant"
                     content := .str inc.content }] } }
    | b => { st with buffer := b }
  else
    match buf with
    | .opened acc => { st with buffer := .opened (acc ++ inc.delta) }
    | b => { st with buffer := b }

/-- Deliver a whole increment sequence to the `text` callback in arrival
order. -/
def processIncrements (assistantMsgId : String) (incs : List Increment)
    (st : CallbackState) : CallbackState :=
  incs.foldl (fun st inc => textCallback assistantMsgId inc st) st

/-- One tuple of the message history sent to the model:
`\x7b role, content, name \x7d` (built by the `.map` over
`aiState.get().messages`). -/
structure ModelMessage where
  role : String
  content : MContent
  name : Option String
deriving Repr, DecidableEq

/-- Projection of a stored message to the history tuple sent to the model. -/
def toModelMessage (m : Message) : ModelMessage :=
  { role := m.role, content := m.content, name := m.name }

/-- The `aiState.update` at the start of `submitUserMessage`: append
`\x7b id, role: user, content \x7d` to the store. -/
def appendUserMessage (userMsgId : String) (content : String) (s : AIState) : AIState :=
  { s with
      messages := s.messages ++
        [{ id := userMsgId, role := "user", content := .str content }] }

/-- The hosted model identifier requested by `submitUserMessage`. -/
def modelId : String :=
  "ft:open-mistral-7b:1b8e4d68:20240615:677d3e2e"

/-- Result of one `submitUserMessage` run: the message history it handed to
`streamUI` and the callback state after the whole increment sequence was
delivered. -/
structure SubmitResult where
  sentHistory : List ModelMessage
  final : CallbackState
deriving Repr, DecidableEq

/-- The `submitUserMessage` server action, with the nondeterministic parts
(the `nanoid()` fresh ids and the increment sequence the model produces)
taken as parameters: append the user message, send the full history
(every stored message mapped to `\x7b role, content, name \x7d`) to the
model, then run the `text` callback over the increments. -/
def submitUserMessage (userMsgId assistantMsgId : String) (content : String)
    (incs : List Increment) (s : AIState) : SubmitResult :=
  let s1 := appendUserMessage userMsgId content s
  { sentHistory := s1.messages.map toModelMessage
    final := processIncrements assistantMsgId incs { buffer := .notCreated, aiState := s1 } }

/-! ## The `performAction` server action -/

/-- One observable step of `performAction`'s background task, in program
order: the timed delays, the status-UI updates, the status-UI close, the
system-message-UI close, and the single store append done by
`aiState.done`. -/
inductive ActionEvent where
  | sleep (ms : Nat)
  | statusUpdate (text : String)
  | statusDone (text : String)
  | systemMessageDone (text : String)
  | storeAppend (msg : Message)
deriving Repr, DecidableEq

/-- The content of the system record appended by `performAction`:
the template literal
`[User performed action: $\x7baction\x7d. Details: $\x7bJSON.stringify(details)\x7d]`. -/
def actionRecordContent (action : String) (details : JsonValue) : String :=
  "[User performed action: " ++ action ++ ". Details: " ++ jsonStringify details ++ "]"

/-- The event sequence of `performAction`'s background task
(`runAsyncFnWithoutBlocking`): sleep, status update, sleep, terminal
status, terminal system message, store append of the system record. -/
def performActionTask (action : String) (details : JsonValue) (sysMsgId : String) :
    List ActionEvent :=
  [ .sleep 1000
  , .statusUpdate ("Performing action: " ++ action ++ "... working on it...")
  , .sleep 1000
  , .statusDone ("Action " ++ action ++ " completed successfully.")
  , .systemMessageDone ("The action " ++ action ++ " has been completed successfully.")
  , .storeAppend
      { id := sysMsgId, role := "system", content := .str (actionRecordContent action details) } ]

/-- Apply one background-task event to the conversation store: only
`storeAppend` touches it (`aiState.done` with the spread-appended
message list); every other event is UI- or timing-only. -/
def applyActionEvent (s : AIState) : ActionEvent → AIState
  | .storeAppend m => { s with messages := s.messages ++ [m] }
  | _ => s

/-- The conversation store after `performAction`'s background task has run
to its terminal phase. -/
def performActionFinalState (action : String) (details : JsonValue) (sysMsgId : String)
    (s : AIState) : AIState :=
  (performActionTask action details sysMsgId).foldl applyActionEvent s

/-- The store appends performed by an event sequence, in order. -/
def storeAppends (evs : List ActionEvent) : List Message :=
  evs.filterMap (fun e =>
    match e with
    | .storeAppend m => some m
    | _ => none)

/-! ## Session gate and the persistence handler `onSetAIState` -/

/-- The authenticated user of a session: `\x7b user: \x7b id \x7d \x7d`. -/
structure SUser where
  id : String
deriving Repr, DecidableEq

/-- A session as returned by `auth()`: may or may not carry a user. -/
structure Session where
  user : Option SUser
deriving Repr, DecidableEq

/-- The chat record handed to `saveChat`:
`\x7b id, title, userId, createdAt, messages, path \x7d`. -/
structure ChatRecord where
  id : String
  title : String
  userId : String
  createdAt : Nat
  messages : List Message
  path : String
deriving Repr, DecidableEq

/-- Model of JavaScript `s.substring(0, n)`: the first `n` characters of
`s` (all of `s` when it is shorter). -/
def jsSubstring0 (s : String) (n : Nat) : String :=
  ⟨s.data.take n⟩

/-- The model of `substring(0, n)` agrees with Lean's `String.take`. -/
lemma jsSubstring0_eq_take (s : String) (n : Nat) : jsSubstring0 s n = s.take n :=
  (String.take_eq s n).symm

/-- The `onSetAIState` handler.  `auth()` and the clock are parameters.
With no session or no user it returns without doing anything (the `else
return` branch).  With a valid user it reads `messages[0].content as
string` — which throws a `TypeError` when the message list is empty
(`messages[0]` is `undefined`) or when the content is not a string
(`.substring` is not a function) — takes the first 100 characters as the
title, and calls `saveChat` with the assembled record.  `Except.ok
(some c)` means `saveChat c` was invoked; `Except.ok none` means the
silent no-op; `Except.error` models the thrown `TypeError`. -/
def onSetAIState (session : Option Session) (now : Nat) (state : AIState) :
    Except String (Option ChatRecord) :=
  match session with
  | none => .ok none
  | some sess =>
    match sess.user with
    | none => .ok none
    | some u =>
      match state.messages with
      | [] => .error "TypeError: cannot read properties of undefined"
      | first :: _ =>
        match first.content with
        | .other => .error "TypeError: firstMessageContent.substring is not a function"
        | .str firstMessageContent =>
            .ok (some
              { id := state.chatId
                title := jsSubstring0 firstMessageContent 100
                userId := u.id
                createdAt := now
                messages := state.messages
                path := "/chat/" ++ state.chatId })

/-! ## Helper lemmas about the stream callback -/

/-- Concatenation of the deltas of an increment sequence, in order. -/
def concatDeltas (ns : List Increment) : String :=
  ns.foldr (fun i acc => i.delta ++ acc) ""

lemma processIncrements_cons (aid : String) (i : Increment) (rest : List Increment)
    (st : CallbackState) :
    processIncrements aid (i :: rest) st = processIncrements aid rest (textCallback aid i st) :=
  rfl

lemma processIncrements_append (aid : String) (l₁ l₂ : List Increment) (st : CallbackState) :
    processIncrements aid (l₁ ++ l₂) st = processIncrements aid l₂ (processIncrements aid l₁ st) :=
  List.foldl_append ..

lemma textCallback_notCreated (aid : String) (i : Increment) (s : AIState) :
    textCallback aid i { buffer := .notCreated, aiState := s }
      = textCallback aid i { buffer := .opened "", aiState := s } :=
  rfl

lemma textCallback_update (aid : String) (i : Increment) (acc : String) (s : AIState)
    (hi : i.done = false) :
    textCallback aid i { buffer := .opened acc, aiState := s }
      = { buffer := .opened (acc ++ i.delta), aiState := s } := by
  simp [textCallback, hi]

lemma textCallback_done (aid : String) (i : Increment) (acc : String) (s : AIState)
    (hi : i.done = true) :
    textCallback aid i { buffer := .opened acc, aiState := s }
      = { buffer := .closed acc
          aiState :=
            { s with messages := s.messages ++
                [{ id := aid, role := "assistant", content := .str i.content }] } } := by
  simp [textCallback, hi]

/-- Delivering only non-terminal increments into an open buffer appends their
deltas in order and leaves the conversation store untouched. -/
lemma processIncrements_opened (aid : String) :
    ∀ (ns : List Increment) (acc : String) (s : AIState),
      (∀ i ∈ ns, i.done = false) →
      processIncrements aid ns { buffer := .opened acc, aiState := s }
        = { buffer := .opened (acc ++ concatDeltas ns), aiState := s } := by
  intro ns
  induction ns with
  | nil => intro acc s _; simp [processIncrements, concatDeltas]
  | cons i rest ih =>
    intro acc s h
    rw [processIncrements_cons, textCallback_update aid i acc s (h i (by simp)),
      ih (acc ++ i.delta) s (fun j hj => h j (by simp [hj]))]
    simp [concatDeltas, String.append_assoc]

/-- Claim C1 — for every increment sequence made of non-terminal increments
followed by one terminal increment whose declared full content is the
concatenation of the deltas, the stream buffer at the moment
`submitUserMessage`'s text callback closes it holds exactly that full
content: every non-terminal delta was appended to, not substituted into,
the open buffer. -/
theorem claim_C1 (uid aid content : String) (s : AIState) (ns : List Increment) (t : Increment)
    (hns : ∀ i ∈ ns, i.done = false) (ht : t.done = true)
    (hwf : t.content = concatDeltas ns) :
    (submitUserMessage uid aid content (ns ++ [t]) s).final.buffer
      = StreamBuffer.closed t.content := by
  show (processIncrements aid (ns ++ [t])
      { buffer := .notCreated, aiState := appendUserMessage uid content s }).buffer
    = StreamBuffer.closed t.content
  cases ns with
  | nil =>
    rw [List.nil_append, processIncrements_cons, textCallback_notCreated,
      textCallback_done aid t "" _ ht]
    simp [processIncrements, hwf, concatDeltas]
  | cons i rest =>
    rw [processIncrements_append, processIncrements_cons aid i rest, textCallback_notCreated,
      textCallback_update aid i "" _ (hns i (by simp)),
      processIncrements_opened aid rest _ _ (fun j hj => hns j (by simp [hj])),
      processIncrements_cons aid t []]
    rw [textCallback_done aid t _ _ ht]
    simp [processIncrements, hwf, concatDeltas]

/-- The closed theorem instantiating `claim_C1` on a concrete stream of two
deltas followed by the terminal increment. -/
theorem claim_C1_witness :
    (submitUserMessage "u1" "a1" "I have a headache"
        [ { content := "Try resting ", done := false, delta := "Try resting " }
        , { content := "Try resting and hydrating", done := false, delta := "and hydrating" }
        , { content := "Try resting and hydrating", done := true, delta := "" } ]
        { chatId := "chat1", messages := [] }).final.buffer
      = StreamBuffer.closed "Try resting and hydrating" := by
  have h := claim_C1 "u1" "a1" "I have a headache" { chatId := "chat1", messages := [] }
    [ { content := "Try resting ", done := false, delta := "Try resting " }
    , { content := "Try resting and hydrating", done := false, delta := "and hydrating" } ]
    { content := "Try resting and hydrating", done := true, delta := "" }
    (by decide) rfl (by decide)
  simpa using h

/-- Claim C3 — `performAction`'s background task performs exactly one store
append, of a system-role message whose content is exactly the template
`[User performed action: A. Details: JSON.stringify(D)]`, and the store
afterwards is the old log with that single record appended. -/
theorem claim_C3 (action : String) (details : JsonValue) (sysMsgId : String) (s : AIState) :
    storeAppends (performActionTask action details sysMsgId)
      = [{ id := sysMsgId, role := "system"
           content := .str ("[User performed action: " ++ action ++ ". Details: "
              ++ jsonStringify details ++ "]") }]
  ∧ (performActionFinalState action details sysMsgId s).messages
      = s.messages ++
          [{ id := sysMsgId, role := "system"
             content := .str ("[User performed action: " ++ action ++ ". Details: "
                ++ jsonStringify details ++ "]") }] := by
  constructor
  · simp [storeAppends, performActionTask, actionRecordContent]
  · simp [performActionFinalState, performActionTask, applyActionEvent, actionRecordContent]

/-- Claim C4 — scenario: starting from an empty conversation,
`submitUserMessage "I have a headache"` followed by a stream completing
with full content `Try resting and hydrating` leaves exactly the user
message and then the assistant message in the store. -/
theorem claim_C4 (uid aid : String) :
    (submitUserMessage uid aid "I have a headache"
        [ { content := "Try resting ", done := false, delta := "Try resting " }
        , { content := "Try resting and hydrating", done := false, delta := "and hydrating" }
        , { content := "Try resting and hydrating", done := true, delta := "" } ]
        { chatId := "chat1", messages := [] }).final.aiState.messages
      = [ { id := uid, role := "user", content := .str "I have a headache" }
        , { id := aid, role := "assistant", content := .str "Try resting and hydrating" } ] :=
  rfl

/-- Every single callback invocation leaves the previously stored messages
as a prefix of the store. -/
lemma textCallback_messages (aid : String) (i : Increment) (st : CallbackState) :
    ∃ t, (textCallback aid i st).aiState.messages = st.aiState.messages ++ t := by
  cases hb : st.buffer with
  | notCreated =>
    cases hd : i.done with
    | false => exact ⟨[], by simp [textCallback, hb, hd]⟩
    | true =>
      exact ⟨[{ id := aid, role := "assistant", content := .str i.content }],
        by simp [textCallback, hb, hd]⟩
  | opened acc =>
    cases hd : i.done with
    | false => exact ⟨[], by simp [textCallback, hb, hd]⟩
    | true =>
      exact ⟨[{ id := aid, role := "assistant", content := .str i.content }],
        by simp [textCallback, hb, hd]⟩
  | closed acc =>
    cases hd : i.done with
    | false => exact ⟨[], by simp [textCallback, hb, hd]⟩
    | true => exact ⟨[], by simp [textCallback, hb, hd]⟩

/-- Delivering any increment sequence only ever appends to the store. -/
lemma processIncrements_messages (aid : String) :
    ∀ (incs : List Increment) (st : CallbackState),
      ∃ t, (processIncrements aid incs st).aiState.messages = st.aiState.messages ++ t := by
  intro incs
  induction incs with
  | nil => intro st; exact ⟨[], by simp [processIncrements]⟩
  | cons i rest ih =>
    intro st
    obtain ⟨t₁, h₁⟩ := textCallback_messages aid i st
    obtain ⟨t₂, h₂⟩ := ih (textCallback aid i st)
    exact ⟨t₁ ++ t₂, by rw [processIncrements_cons, h₂, h₁, List.append_assoc]⟩

/-- Claim C5 — every state-mutating operation (the user append, every
assistant append done by the stream callback, a whole
`submitUserMessage` run, and `performAction`'s system append) keeps the
previously stored messages unchanged and in order as a prefix: the new
log is always the old log with new records appended at the end. -/
theorem claim_C5 :
    (∀ (uid c : String) (s : AIState),
      (appendUserMessage uid c s).messages
        = s.messages ++ [{ id := uid, role := "user", content := .str c }])
  ∧ (∀ (aid : String) (incs : List Increment) (st : CallbackState),
      ∃ t, (processIncrements aid incs st).aiState.messages = st.aiState.messages ++ t)
  ∧ (∀ (uid aid c : String) (incs : List Increment) (s : AIState),
      ∃ t, (submitUserMessage uid aid c incs s).final.aiState.messages = s.messages ++ t)
  ∧ (∀ (action : String) (details : JsonValue) (sysMsgId : String) (s : AIState),
      (performActionFinalState action details sysMsgId s).messages
        = s.messages ++
            [{ id := sysMsgId, role := "system"
               content := .str (actionRecordContent action details) }]) := by
  refine ⟨fun uid c s => rfl, processIncrements_messages, ?_, ?_⟩
  · intro uid aid c incs s
    obtain ⟨t, ht⟩ := processIncrements_messages aid incs
      { buffer := .notCreated, aiState := appendUserMessage uid c s }
    exact ⟨{ id := uid, role := "user", content := .str c } :: t,
      by simpa [appendUserMessage] using ht⟩
  · intro action details sysMsgId s
    simp [performActionFinalState, performActionTask, applyActionEvent]

/-! ## The UI projection claims -/

/-- Claim C2 — the projection has exactly one entry per non-system message
of the state, in the same relative order: its length is the length of the
message list filtered by role ≠ system, and its i-th entry displays the
i-th message of that filtered list. -/
theorem claim_C2 (s : AIState) :
    (getUIStateFromAIState s).length
      = (s.messages.filter (fun m => m.role != "system")).length
  ∧ ∀ i : Nat,
      ((getUIStateFromAIState s)[i]?).map UIEntry.display
        = ((s.messages.filter (fun m => m.role != "system"))[i]?).map displayFor := by
  constructor
  · simp [getUIStateFromAIState, List.enum]
  · intro i
    cases h : (s.messages.filter (fun m => m.role != "system"))[i]? with
    | none => simp [getUIStateFromAIState, List.enum, h]
    | some m => simp [getUIStateFromAIState, List.enum, h]

lemma displayFor_congr (m₁ m₂ : Message) (hr : m₁.role = m₂.role)
    (hc : m₁.content = m₂.content) : displayFor m₁ = displayFor m₂ := by
  simp only [displayFor, hr, hc]

/-- Projection entries built from two message lists agree whenever the lists
agree on roles and contents — the messages' own `id` and `name` fields are
never consulted. -/
lemma proj_entries_congr (cid : String) :
    ∀ (l₁ l₂ : List Message) (n : Nat),
      l₁.map (fun m => (m.role, m.content)) = l₂.map (fun m => (m.role, m.content)) →
      ((l₁.filter (fun m => m.role != "system")).enumFrom n).map
          (fun p => ({ id := cid ++ "-" ++ toString p.1, display := displayFor p.2 } : UIEntry))
        = ((l₂.filter (fun m => m.role != "system")).enumFrom n).map
          (fun p => ({ id := cid ++ "-" ++ toString p.1, display := displayFor p.2 } : UIEntry)) := by
  intro l₁
  induction l₁ with
  | nil =>
    intro l₂ n h
    cases l₂ with
    | nil => rfl
    | cons m₂ t₂ => simp at h
  | cons m₁ t₁ ih =>
    intro l₂ n h
    cases l₂ with
    | nil => simp at h
    | cons m₂ t₂ =>
      simp only [List.map_cons, List.cons.injEq] at h
      obtain ⟨hm, ht⟩ := h
      have hr : m₁.role = m₂.role := congrArg Prod.fst hm
      have hc : m₁.content = m₂.content := congrArg Prod.snd hm
      cases h₂ : (m₁.role != "system") with
      | false =>
        have h₂' : (m₂.role != "system") = false := by rw [← hr]; exact h₂
        simp only [List.filter_cons, h₂, h₂', if_false, Bool.false_eq_true]
        exact ih t₂ n ht
      | true =>
        have h₂' : (m₂.role != "system") = true := by rw [← hr]; exact h₂
        simp only [List.filter_cons, h₂, h₂', if_true, List.enumFrom_cons, List.map_cons,
          List.cons.injEq]
        exact ⟨by rw [displayFor_congr m₁ m₂ hr hc], ih t₂ (n + 1) ht⟩

/-- Claim C10 — the i-th projection entry's id is exactly
`chatId ++ "-" ++ i` where i is its position in the filtered list, and
the projection never reads the messages' own id (or name) fields: two
states agreeing on chatId and on the role/content of each message
project to structurally equal UI states. -/
theorem claim_C10 :
    (∀ (s : AIState) (i : Nat) (hi : i < (getUIStateFromAIState s).length),
      ((getUIStateFromAIState s).get ⟨i, hi⟩).id = s.chatId ++ "-" ++ toString i)
  ∧ (∀ s t : AIState, s.chatId = t.chatId →
      s.messages.map (fun m => (m.role, m.content))
        = t.messages.map (fun m => (m.role, m.content)) →
      getUIStateFromAIState s = getUIStateFromAIState t) := by
  constructor
  · intro s i hi
    simp [getUIStateFromAIState, List.enum, List.get_eq_getElem,
      List.getElem_map, List.getElem_enumFrom]
  · intro s t hcid h
    have e₁ : getUIStateFromAIState s
        = ((s.messages.filter (fun m => m.role != "system")).enumFrom 0).map
            (fun p => ({ id := s.chatId ++ "-" ++ toString p.1
                         display := displayFor p.2 } : UIEntry)) := rfl
    have e₂ : getUIStateFromAIState t
        = ((t.messages.filter (fun m => m.role != "system")).enumFrom 0).map
            (fun p => ({ id := t.chatId ++ "-" ++ toString p.1
                         display := displayFor p.2 } : UIEntry)) := rfl
    rw [e₁, e₂, hcid]
    exact proj_entries_congr t.chatId s.messages t.messages 0 h

/-- The closed theorem instantiating `claim_C10` at a concrete state: the
single projected entry has id `c-0`, and renaming the message ids leaves
the projection unchanged. -/
theorem claim_C10_witness :
    ((getUIStateFromAIState
        { chatId := "c"
          messages := [{ id := "m1", role := "user", content := .str "hi" }] }).get
        ⟨0, by decide⟩).id = "c-0"
  ∧ getUIStateFromAIState
        { chatId := "c"
          messages := [{ id := "m1", role := "user", content := .str "hi" }] }
      = getUIStateFromAIState
        { chatId := "c"
          messages := [{ id := "zzz", role := "user", content := .str "hi" }] } := by
  constructor
  · exact claim_C10.1 _ 0 (by decide)
  · exact claim_C10.2 _ _ rfl (by decide)

/-! ## Persistence and model-history claims -/

/-- Claim C6 — whenever `onSetAIState` actually invokes `saveChat` (the run
returns `ok (some c)`), the persisted record carries the state's message
list, that list is nonempty, and the session carried a user whose id is
the record's userId. -/
theorem claim_C6 (session : Option Session) (now : Nat) (state : AIState) (c : ChatRecord)
    (h : onSetAIState session now state = .ok (some c)) :
    c.messages = state.messages ∧ state.messages ≠ []
  ∧ ∃ sess u, session = some sess ∧ sess.user = some u ∧ c.userId = u.id := by
  cases session with
  | none => simp [onSetAIState] at h
  | some sess =>
    cases hu : sess.user with
    | none => simp [onSetAIState, hu] at h
    | some u =>
      cases hm : state.messages with
      | nil => simp [onSetAIState, hu, hm] at h
      | cons first rest =>
        cases hc : first.content with
        | other => simp [onSetAIState, hu, hm, hc] at h
        | str fs =>
          simp only [onSetAIState, hu, hm, hc, Except.ok.injEq, Option.some.injEq] at h
          subst h
          exact ⟨rfl, by simp [hm], sess, u, rfl, hu, rfl⟩

set_option maxRecDepth 8192 in
/-- The closed theorem instantiating `claim_C6` at a concrete authenticated
run of `onSetAIState`. -/
theorem claim_C6_witness :
    ({ id := "c1", title := "hello", userId := "u1", createdAt := 5
       messages := [{ id := "m1", role := "user", content := .str "hello" }]
       path := "/chat/c1" } : ChatRecord).messages
        = ({ chatId := "c1"
             messages := [{ id := "m1", role := "user", content := .str "hello" }] }
            : AIState).messages
  ∧ ({ chatId := "c1"
       messages := [{ id := "m1", role := "user", content := .str "hello" }] }
      : AIState).messages ≠ []
  ∧ ∃ sess u,
      (some { user := some { id := "u1" } } : Option Session) = some sess
    ∧ sess.user = some u
    ∧ ({ id := "c1", title := "hello", userId := "u1", createdAt := 5
         messages := [{ id := "m1", role := "user", content := .str "hello" }]
         path := "/chat/c1" } : ChatRecord).userId = u.id :=
  claim_C6 (some { user := some { id := "u1" } }) 5
    { chatId := "c1"
      messages := [{ id := "m1", role := "user", content := .str "hello" }] }
    { id := "c1", title := "hello", userId := "u1", createdAt := 5
      messages := [{ id := "m1", role := "user", content := .str "hello" }]
      path := "/chat/c1" }
    (by rfl)

/-- Claim C7 — with no session, or a session without a user, `onSetAIState`
is a silent no-op: it neither calls `saveChat` nor raises, for every
state. -/
theorem claim_C7 (session : Option Session) (now : Nat) (state : AIState)
    (h : session = none ∨ ∃ sess, session = some sess ∧ sess.user = none) :
    onSetAIState session now state = .ok none := by
  rcases h with h | ⟨sess, hs, hu⟩
  · subst h; rfl
  · subst hs; simp [onSetAIState, hu]

/-- The closed theorem instantiating `claim_C7` with an absent session. -/
theorem claim_C7_witness :
    onSetAIState none 3 { chatId := "c1", messages := [] } = .ok none :=
  claim_C7 none 3 { chatId := "c1", messages := [] } (Or.inl rfl)

/-- Claim C8 — the history `submitUserMessage` sends to the model is the
whole store after the user append, one `(role, content, name)` tuple per
stored message in store order; in particular every previously stored
message — system records included — appears in it unfiltered. -/
theorem claim_C8 (uid aid content : String) (incs : List Increment) (s : AIState) :
    (submitUserMessage uid aid content incs s).sentHistory
      = ((appendUserMessage uid content s).messages).map toModelMessage
  ∧ (∀ i : Nat, i < s.messages.length →
      (submitUserMessage uid aid content incs s).sentHistory[i]?
        = (s.messages[i]?).map toModelMessage)
  ∧ (∀ m ∈ s.messages, m.role = "system" →
      toModelMessage m ∈ (submitUserMessage uid aid content incs s).sentHistory) := by
  refine ⟨rfl, ?_, ?_⟩
  · intro i hi
    show ((s.messages
          ++ [({ id := uid, role := "user", content := .str content } : Message)]).map
        toModelMessage)[i]? = (s.messages[i]?).map toModelMessage
    rw [List.getElem?_map, List.getElem?_append_left hi]
  · intro m hm _
    show toModelMessage m
      ∈ (s.messages
          ++ [({ id := uid, role := "user", content := .str content } : Message)]).map
          toModelMessage
    exact List.mem_map_of_mem toModelMessage (List.mem_append_left _ hm)

/-- The closed theorem instantiating `claim_C8`: a prior system record is in
the history sent to the model. -/
theorem claim_C8_witness :
    toModelMessage { id := "m1", role := "system", content := .str "[note]", name := none }
      ∈ (submitUserMessage "u1" "a1" "hi" []
          { chatId := "c"
            messages := [{ id := "m1", role := "system", content := .str "[note]" }] }
          ).sentHistory :=
  (claim_C8 "u1" "a1" "hi" []
    { chatId := "c"
      messages := [{ id := "m1", role := "system", content := .str "[note]" }] }).2.2
    { id := "m1", role := "system", content := .str "[note]", name := none }
    (by simp) rfl

/-- Claim C9 — under a valid session, when the first stored message's
content is the string `fs`, `saveChat` receives a record whose title is
the first 100 characters of `fs` (all of `fs` when it is at most 100
characters long) and whose path is `/chat/` followed by the chat id. -/
theorem claim_C9 (sess : Session) (u : SUser) (now : Nat) (state : AIState)
    (first : Message) (rest : List Message) (fs : String)
    (hu : sess.user = some u)
    (hm : state.messages = first :: rest)
    (hc : first.content = .str fs) :
    ∃ c, onSetAIState (some sess) now state = .ok (some c)
      ∧ c.title = fs.take 100
      ∧ (fs.length ≤ 100 → c.title = fs)
      ∧ c.path = "/chat/" ++ state.chatId := by
  refine ⟨{ id := state.chatId, title := jsSubstring0 fs 100, userId := u.id, createdAt := now
            messages := state.messages, path := "/chat/" ++ state.chatId },
    ?_, ?_, ?_, rfl⟩
  · obtain ⟨su⟩ := sess
    have hu' : su = some u := hu
    subst hu'
    rw [show onSetAIState (some ⟨some u⟩) now state
        = (match state.messages with
           | [] => .error "TypeError: cannot read properties of undefined"
           | first :: _ =>
             match first.content with
             | .other => .error "TypeError: firstMessageContent.substring is not a function"
             | .str firstMessageContent =>
                 .ok (some
                   { id := state.chatId
                     title := jsSubstring0 firstMessageContent 100
                     userId := u.id
                     createdAt := now
                     messages := state.messages
                     path := "/chat/" ++ state.chatId })
           : Except String (Option ChatRecord)) from rfl]
    rw [hm]
    show (match first.content with
          | .other =>
              (.error "TypeError: firstMessageContent.substring is not a function"
                : Except String (Option ChatRecord))
          | .str firstMessageContent =>
              .ok (some
                { id := state.chatId
                  title := jsSubstring0 firstMessageContent 100
                  userId := u.id
                  createdAt := now
                  messages := first :: rest
                  path := "/chat/" ++ state.chatId })) = _
    rw [hc]
  · show jsSubstring0 fs 100 = fs.take 100
    rw [String.take_eq]
    rfl
  · intro hlen
    show (⟨fs.data.take 100⟩ : String) = fs
    rw [List.take_of_length_le hlen]

/-- A 150-character first message, used to instantiate `claim_C9`. -/
def sampleLongContent : String :=
  String.join (List.replicate 15 "0123456789")

/-- The closed theorem instantiating `claim_C9` on a 150-character first
message. -/
theorem claim_C9_witness :
    ∃ c, onSetAIState (some { user := some { id := "u1" } }) 7
        { chatId := "c1"
          messages := [{ id := "m1", role := "user", content := .str sampleLongContent }] }
        = .ok (some c)
      ∧ c.title = sampleLongContent.take 100
      ∧ (sampleLongContent.length ≤ 100 → c.title = sampleLongContent)
      ∧ c.path = "/chat/"
          ++ ({ chatId := "c1"
                messages := [{ id := "m1", role := "user"
                               content := .str sampleLongContent }] } : AIState).chatId :=
  claim_C9 { user := some { id := "u1" } } { id := "u1" } 7
    { chatId := "c1"
      messages := [{ id := "m1", role := "user", content := .str sampleLongContent }] }
    { id := "m1", role := "user", content := .str sampleLongContent } [] sampleLongContent
    rfl rfl rfl

end SyDeTre
